import Mathlib

/-!
Verification development for the training_assistant extension runtime:
the type-erased resource registry, the command router, the SQLite
connection wrapper with its row/field marshalling layer, and the
terminal-UI tab arena.  Each definition is a shallow embedding of the
corresponding Rust item (crates/framework/src/context.rs,
crates/framework/src/db.rs, crates/tui/src/lib.rs); SQLite behaviour is
modelled by explicit state passing over an in-memory relational state.
-/

namespace TrainingAssistant

/-- Application error type.  Modelled from the spec: the crate root of
crates/framework (which defines the Error type) is absent from the
sources; spec section 7 lists the error kinds, db.rs constructs errors
with Error.new(message) and context.rs uses Error.UnknownError.  We
model an error as a message constructor plus the unknown-command
variant. -/
inductive Error where
  | new (msg : String) : Error
  | unknownError : Error
deriving DecidableEq, Repr

/-- SQL storage classes relevant to the marshalling layer: NULL,
INTEGER and TEXT (db.rs stores every field as INTEGER or TEXT). -/
inductive SqlValue where
  | null : SqlValue
  | integer (i : Int) : SqlValue
  | text (s : String) : SqlValue
deriving DecidableEq, Repr

/-- RowId(pub i64): a 64-bit signed row identity (db.rs).  Machine
integers are modelled as Int; no arithmetic in the claims overflows. -/
structure RowId where
  val : Int
deriving DecidableEq, Repr

/-- CommandResponse from context.rs: an optional text payload. -/
structure CommandResponse where
  text : Option String
deriving DecidableEq, Repr

/-- CommandResponse.new from context.rs. -/
def CommandResponse.new (s : String) : CommandResponse := ⟨some s⟩

/-- First-match association lookup (models HashMap get and SQL lookup
by key on unique keys). -/
def assocFind {κ α : Type _} [DecidableEq κ] : List (κ × α) → κ → Option α
  | [], _ => none
  | (k, a) :: rest, key => if k = key then some a else assocFind rest key

/-- HashMap insert: replace the value at an existing key, else append
the new entry. -/
def assocInsert {κ α : Type _} [DecidableEq κ] : List (κ × α) → κ → α → List (κ × α)
  | [], key, a => [(key, a)]
  | (k, b) :: rest, key, a =>
    if k = key then (key, a) :: rest else (k, b) :: assocInsert rest key a

/-- Update the value at the first occurrence of a key, leaving the list
unchanged when the key is absent (models writing through a mutable
reference obtained from a lookup). -/
def assocUpdate {κ α : Type _} [DecidableEq κ] : List (κ × α) → κ → α → List (κ × α)
  | [], _, _ => []
  | (k, b) :: rest, key, a =>
    if k = key then (key, a) :: rest else (k, b) :: assocUpdate rest key a

/-- A stored row: column name to stored value. -/
abbrev SqlRow := List (String × SqlValue)

/-- UPDATE table SET field = value semantics on one row: every cell of
that column is overwritten (columns are unique in a real row; if the
cell is missing the value is added, matching the schema invariant that
every declared column has a cell). -/
def rowSet : SqlRow → String → SqlValue → SqlRow
  | [], f, v => [(f, v)]
  | (g, w) :: rest, f, v =>
    if g = f then (f, v) :: rowSet rest f v else (g, w) :: rowSet rest f v

/-- Read one column of a row; a declared column always has a cell, a
missing cell reads as NULL. -/
def rowGet (r : SqlRow) (f : String) : SqlValue :=
  match r.find? (fun p => p.1 = f) with
  | some p => p.2
  | none => SqlValue.null

/-- One SQL table: the non-id column names declared at CREATE TABLE
(id INTEGER PRIMARY KEY is implicit) and the live rows in insertion
order, keyed by rowid. -/
structure Table where
  columns : List String
  rows : List (Int × SqlRow)
deriving DecidableEq, Repr

/-- The relational state behind an open connection: tables by name
(names are unique, CREATE TABLE IF NOT EXISTS skips duplicates). -/
structure DbState where
  tables : List (String × Table)
deriving DecidableEq, Repr

/-- Lookup a table by name (SQLite name resolution). -/
def DbState.lookupTable (s : DbState) (name : String) : Option Table :=
  (s.tables.find? (fun p => p.1 = name)).map (fun p => p.2)

/-- Replace the (first) table entry of a given name. -/
def tablesSet : List (String × Table) → String → Table → List (String × Table)
  | [], _, _ => []
  | (n, tb) :: rest, name, t =>
    if n = name then (name, t) :: rest else (n, tb) :: tablesSet rest name t

/-- DbConnection from db.rs: the optional open connection (None when
closed or not yet opened) and the backing file path (None for an
in-memory connection).  The rusqlite connection is modelled by the
relational state it encapsulates. -/
structure DbConnection where
  connection : Option DbState
  db_path : Option String
deriving DecidableEq, Repr

/-- DbConnection.is_open from db.rs. -/
def DbConnection.is_open (c : DbConnection) : Bool :=
  c.connection.isSome

/-- DbConnection.get_connection_if_exists from db.rs. -/
def DbConnection.get_connection_if_exists (c : DbConnection) : Except Error DbState :=
  match c.connection with
  | some s => .ok s
  | none => .error (.new "no active db connection")

/-- SQLite rowid generation for INSERT on a table declared with
id INTEGER PRIMARY KEY: one larger than the largest rowid in use
(1 on an empty table). -/
def maxRowId (rows : List (Int × SqlRow)) : Int :=
  rows.foldl (fun acc p => max acc p.1) 0

/-- DbConnection.new_row_in_table from db.rs: INSERT INTO table
DEFAULT VALUES (every declared column defaults to NULL), then
last_insert_rowid. -/
def DbConnection.new_row_in_table (c : DbConnection) (table : String) :
    Except Error (RowId × DbConnection) :=
  match c.get_connection_if_exists with
  | .error e => .error e
  | .ok s =>
    match s.lookupTable table with
    | none => .error (.new "no such table")
    | some t =>
      let rid : Int := maxRowId t.rows + 1
      let newRow : SqlRow := t.columns.map (fun col => (col, SqlValue.null))
      let t2 : Table := ⟨t.columns, t.rows ++ [(rid, newRow)]⟩
      .ok (⟨rid⟩, ⟨some ⟨tablesSet s.tables table t2⟩, c.db_path⟩)

/-- DbConnection.set_field_in_table from db.rs: UPDATE table SET field
= value WHERE id = row_id.  Statement preparation fails on an unknown
table or column; a WHERE clause matching zero rows is still success. -/
def DbConnection.set_field_in_table (c : DbConnection) (table : String)
    (rid : RowId) (field : String) (v : SqlValue) : Except Error DbConnection :=
  match c.get_connection_if_exists with
  | .error e => .error e
  | .ok s =>
    match s.lookupTable table with
    | none => .error (.new "no such table")
    | some t =>
      if field ∈ t.columns then
        let t2 : Table :=
          ⟨t.columns,
           t.rows.map (fun p => if p.1 = rid.val then (p.1, rowSet p.2 field v) else p)⟩
        .ok ⟨some ⟨tablesSet s.tables table t2⟩, c.db_path⟩
      else .error (.new "no such column")

/-- DbConnection.get_table_row_ids from db.rs: SELECT id FROM table,
in rowid (insertion) order. -/
def DbConnection.get_table_row_ids (c : DbConnection) (table : String) :
    Except Error (List Int) :=
  match c.get_connection_if_exists with
  | .error e => .error e
  | .ok s =>
    match s.lookupTable table with
    | none => .error (.new "no such table")
    | some t => .ok (t.rows.map (fun p => p.1))

/-- DbConnection.get_field_in_table_row from db.rs before the FromSql
conversion: SELECT field FROM table WHERE id = row_id via query_one,
which errors when the row is absent. -/
def DbConnection.get_field_raw (c : DbConnection) (table : String)
    (rid : RowId) (field : String) : Except Error SqlValue :=
  match c.get_connection_if_exists with
  | .error e => .error e
  | .ok s =>
    match s.lookupTable table with
    | none => .error (.new "no such table")
    | some t =>
      if field ∈ t.columns then
        match t.rows.find? (fun p => p.1 = rid.val) with
        | some p => .ok (rowGet p.2 field)
        | none => .error (.new "Query returned no rows")
      else .error (.new "no such column")

/-- rusqlite FromSql for String: accepts TEXT only. -/
def fromSqlString : SqlValue → Except Error String
  | .text s => .ok s
  | _ => .error (.new "Invalid column type")

/-- rusqlite FromSql for i64: accepts INTEGER only. -/
def fromSqlI64 : SqlValue → Except Error Int
  | .integer i => .ok i
  | _ => .error (.new "Invalid column type")

/-- FromSql for RowId from db.rs: an INTEGER column value wrapped in
RowId, InvalidType otherwise. -/
def fromSqlRowId : SqlValue → Except Error RowId
  | .integer i => .ok ⟨i⟩
  | _ => .error (.new "Invalid column type")

/-- get_field_in_table_row instantiated at String. -/
def DbConnection.get_field_String (c : DbConnection) (table : String)
    (rid : RowId) (field : String) : Except Error String :=
  match c.get_field_raw table rid field with
  | .error e => .error e
  | .ok v => fromSqlString v

/-- get_field_in_table_row instantiated at i64. -/
def DbConnection.get_field_I64 (c : DbConnection) (table : String)
    (rid : RowId) (field : String) : Except Error Int :=
  match c.get_field_raw table rid field with
  | .error e => .error e
  | .ok v => fromSqlI64 v

/-- get_field_in_table_row instantiated at RowId (via the FromSql
implementation for RowId in db.rs). -/
def DbConnection.get_field_RowId (c : DbConnection) (table : String)
    (rid : RowId) (field : String) : Except Error RowId :=
  match c.get_field_raw table rid field with
  | .error e => .error e
  | .ok v => fromSqlRowId v

/-- ToSql encoding of a String value. -/
def toSqlString (s : String) : SqlValue := .text s

/-- ToSql encoding of an i64 value. -/
def toSqlI64 (i : Int) : SqlValue := .integer i

/-- Storage encoding of a RowId: its inner i64 (call sites pass the
inner integer of the RowId when setting a row-identity field). -/
def toSqlRowId (r : RowId) : SqlValue := .integer r.val

/-- DbConnection.remove_row_in_table from db.rs: DELETE FROM table
WHERE id = row_id; deleting zero rows is success. -/
def DbConnection.remove_row_in_table (c : DbConnection) (table : String)
    (rid : RowId) : Except Error DbConnection :=
  match c.get_connection_if_exists with
  | .error e => .error e
  | .ok s =>
    match s.lookupTable table with
    | none => .error (.new "no such table")
    | some t =>
      let t2 : Table := ⟨t.columns, t.rows.filter (fun p => p.1 ≠ rid.val)⟩
      .ok ⟨some ⟨tablesSet s.tables table t2⟩, c.db_path⟩

/-- DbConnection.delete_db from db.rs: take the connection (error when
none is open), close it, and remove the backing file when one exists
(for an in-memory connection there is no file).  Closing and file
removal succeed in this model; afterwards both fields are None. -/
def DbConnection.delete_db (c : DbConnection) : Except Error DbConnection :=
  match c.connection with
  | none => .error (.new "no active db connection")
  | some _ => .ok ⟨none, none⟩

/-- A table descriptor as far as connection setup is concerned: the
table name and the declared non-id columns (the derive macro emits
CREATE TABLE IF NOT EXISTS name(id INTEGER PRIMARY KEY, columns...)). -/
structure TableConfig where
  table_name : String
  columns : List String
deriving DecidableEq, Repr

/-- DbConnection.setup_connection from db.rs: run every setup function
in order, each a CREATE TABLE IF NOT EXISTS (a duplicate name leaves
the existing table in place, a new name appends an empty table). -/
def setupConnection : DbState → List TableConfig → DbState
  | s, [] => s
  | s, cfg :: rest =>
    match s.lookupTable cfg.table_name with
    | some _ => setupConnection s rest
    | none =>
      setupConnection ⟨s.tables ++ [(cfg.table_name, ⟨cfg.columns, []⟩)]⟩ rest

/-- DbConnection.open_in_memory from db.rs: a fresh in-memory database
(no tables, no file path) with the configured tables created. -/
def DbConnection.open_in_memory (configs : List TableConfig) : DbConnection :=
  ⟨some (setupConnection ⟨[]⟩ configs), none⟩

/-- The resource registry of Context (context.rs): a HashMap from
TypeId to a boxed, type-erased value.  TypeId is an abstract type with
decidable equality and RVal assigns to each type identity the Lean type
of its values; a stored box is a dependent pair of the runtime type tag
and the value (the tag is what the Any downcast inspects). -/
def Registry (TypeId : Type) (RVal : TypeId → Type) : Type :=
  List (TypeId × Sigma RVal)

section RegistrySection

variable {TypeId : Type} [DecidableEq TypeId] {RVal : TypeId → Type}

/-- The raw HashMap lookup self.resources.get(TypeId.of R) before any
downcast: the stored type-erased box, if the key is present. -/
def getResourceEntry : Registry TypeId RVal → TypeId → Option (Sigma RVal)
  | [], _ => none
  | (k, e) :: rest, t => if k = t then some e else getResourceEntry rest t

/-- Context.add_resource from context.rs: insert the value keyed by its
own type identity, overwriting an existing entry of that type. -/
def addResource : Registry TypeId RVal → (t : TypeId) → RVal t → Registry TypeId RVal
  | [], t, v => [(t, ⟨t, v⟩)]
  | (k, e) :: rest, t, v =>
    if k = t then (t, ⟨t, v⟩) :: rest else (k, e) :: addResource rest t v

/-- Context.get_resource from context.rs: HashMap get by the requested
type identity, then downcast_ref, which yields the value only when the
stored runtime tag equals the requested type. -/
def getResource (r : Registry TypeId RVal) (t : TypeId) : Option (RVal t) :=
  match getResourceEntry r t with
  | none => none
  | some ⟨t2, v⟩ => if h : t2 = t then some (h ▸ v) else none

/-- Context.get_resource_mut from context.rs: same lookup and downcast
as get_resource, returning the mutable view of the same live value. -/
def getResourceMut (r : Registry TypeId RVal) (t : TypeId) : Option (RVal t) :=
  match getResourceEntry r t with
  | none => none
  | some ⟨t2, v⟩ => if h : t2 = t then some (h ▸ v) else none

/-- Context.has_resource from context.rs: contains_key on the map. -/
def hasResource (r : Registry TypeId RVal) (t : TypeId) : Bool :=
  (getResourceEntry r t).isSome

/-- A sequence of add_resource calls applied in order. -/
def applyAdds (r : Registry TypeId RVal) (adds : List (Sigma RVal)) :
    Registry TypeId RVal :=
  adds.foldl (fun acc e => addResource acc e.1 e.2) r

/-- The type-identity keys currently resident. -/
def registryKeys (r : Registry TypeId RVal) : List TypeId :=
  r.map (fun p => p.1)

end RegistrySection

/-- The shlex lexer state: between words (skipping whitespace and
comments), inside a comment, inside a word outside quotes, inside
single quotes, inside double quotes. -/
inductive ShlexMode where
  | start : ShlexMode
  | comment : ShlexMode
  | word : ShlexMode
  | single : ShlexMode
  | double : ShlexMode
deriving DecidableEq, Repr

/-- The double-quote character. -/
def dquoteChar : Char := Char.ofNat 34

/-- The single-quote character. -/
def squoteChar : Char := Char.ofNat 39

/-- The backslash character. -/
def bslashChar : Char := Char.ofNat 92

/-- The newline character. -/
def nlChar : Char := Char.ofNat 10

/-- The tab character. -/
def tabChar : Char := Char.ofNat 9

/-- The number-sign character, which starts a comment at word start. -/
def hashChar : Char := Char.ofNat 35

/-- The dollar character (escapable inside double quotes). -/
def dollarChar : Char := Char.ofNat 36

/-- The grave-accent character (escapable inside double quotes). -/
def graveChar : Char := Char.ofNat 96

/-- The word delimiters of the shlex crate: space, tab and newline
(exactly these three, not all of Unicode whitespace). -/
def isShlexWs (c : Char) : Bool :=
  c == ' ' || c == tabChar || c == nlChar

/-- Core loop of the external shlex word splitter used by
Context.execute, modelling the shlex crate at character level (the
crate iterates bytes; on inputs whose escapes apply to ASCII the two
agree).  Between words, whitespace is skipped and a number sign starts
a comment running to the end of the line.  Inside a word, double and
single quotes group characters; a backslash outside quotes takes the
next character literally (a backslash-newline pair produces nothing);
inside double quotes a backslash escapes only dollar, grave accent,
double quote and backslash (and elides a newline), and otherwise both
characters are kept; single quotes have no escapes.  A dangling
backslash or an unterminated quote makes the whole split fail (split
returns None).  Arguments: remaining input, mode, current word
(reversed), words so far (reversed). -/
def shlexGo : List Char → ShlexMode → List Char → List String → Option (List String)
  | [], .start, _, acc => some acc.reverse
  | [], .comment, _, acc => some acc.reverse
  | [], .word, cur, acc => some (String.mk cur.reverse :: acc).reverse
  | [], .single, _, _ => none
  | [], .double, _, _ => none
  | c :: rest, .start, _, acc =>
    if isShlexWs c then shlexGo rest .start [] acc
    else if c = hashChar then shlexGo rest .comment [] acc
    else if c = dquoteChar then shlexGo rest .double [] acc
    else if c = squoteChar then shlexGo rest .single [] acc
    else if c = bslashChar then
      match rest with
      | [] => none
      | c2 :: rest2 =>
        if c2 = nlChar then shlexGo rest2 .word [] acc
        else shlexGo rest2 .word [c2] acc
    else shlexGo rest .word [c] acc
  | c :: rest, .comment, _, acc =>
    if c = nlChar then shlexGo rest .start [] acc
    else shlexGo rest .comment [] acc
  | c :: rest, .word, cur, acc =>
    if isShlexWs c then shlexGo rest .start [] (String.mk cur.reverse :: acc)
    else if c = dquoteChar then shlexGo rest .double cur acc
    else if c = squoteChar then shlexGo rest .single cur acc
    else if c = bslashChar then
      match rest with
      | [] => none
      | c2 :: rest2 =>
        if c2 = nlChar then shlexGo rest2 .word cur acc
        else shlexGo rest2 .word (c2 :: cur) acc
    else shlexGo rest .word (c :: cur) acc
  | c :: rest, .single, cur, acc =>
    if c = squoteChar then shlexGo rest .word cur acc
    else shlexGo rest .single (c :: cur) acc
  | c :: rest, .double, cur, acc =>
    if c = dquoteChar then shlexGo rest .word cur acc
    else if c = bslashChar then
      match rest with
      | [] => none
      | c2 :: rest2 =>
        if c2 = dollarChar ∨ c2 = graveChar ∨ c2 = dquoteChar ∨ c2 = bslashChar then
          shlexGo rest2 .double (c2 :: cur) acc
        else if c2 = nlChar then shlexGo rest2 .double cur acc
        else shlexGo rest2 .double (c2 :: bslashChar :: cur) acc
    else shlexGo rest .double (c :: cur) acc

/-- shlex split of a command line into words, None on a malformed
input (unterminated quote or dangling backslash). -/
def shlexSplit (s : String) : Option (List String) :=
  shlexGo s.data .start [] []

/-- A registered clap Command as the argument parser sees it: its name
and its validation of the remaining tokens against the declared
argument specification (a command with no declared arguments accepts
only an empty remainder). -/
structure ClapCommand where
  name : String
  argsOk : List String → Bool

/-- The outcome of clap get_matches_from on a token list: either parsed
matches naming the resolved subcommand and its argument tokens, or a
process exit (clap prints the error, or the help or version text, and
terminates the process; the call never returns in that case). -/
inductive ClapResult where
  | matches (sub : String) (args : List String) : ClapResult
  | exit (msg : String) : ClapResult
deriving Repr

/-- clap get_matches_from on the command tree built by execute (a root
command with subcommand_required and one subcommand per registered
command): the first token is the binary name; the next token must
resolve to a registered subcommand, whose remaining tokens must satisfy
that subcommand's argument specification; every failure (no subcommand,
unrecognized subcommand, invalid arguments — and likewise a help or
version request) terminates the process instead of returning.  The exit
messages are representative of the clap output. -/
def clapGetMatches (specs : List ClapCommand) (tokens : List String) : ClapResult :=
  match tokens with
  | _ :: sub :: args =>
    match specs.find? (fun sp => sp.name = sub) with
    | some sp =>
      if sp.argsOk args then .matches sub args
      else .exit "error: unexpected argument"
    | none => .exit "error: unrecognized subcommand"
  | _ => .exit "error: a subcommand is required"

/-- The command list of a Context (context.rs): registration order of
(clap Command, handler).  Handlers are abstract (the claim quantifies
over them); H is the handler representation. -/
structure CmdContext (H : Type) where
  commands : List (ClapCommand × H)

/-- The routing loop of Context.execute: the first registered command
whose name equals the parsed subcommand name. -/
def findCommand {H : Type} : List (ClapCommand × H) → String → Option (ClapCommand × H)
  | [], _ => none
  | (c, h) :: rest, name =>
    if c.name = name then some (c, h) else findCommand rest name

deriving instance DecidableEq for Except

/-- The possible outcomes of one call to Context.execute: a normal
return (Ok response or Err propagated from the handler or from the
unknown-command fall-through), a process exit performed by clap inside
get_matches_from (the call never returns to the caller), or a panic
(the unwrap on a failed shlex split). -/
inductive ExecResult where
  | returned (r : Except Error CommandResponse) : ExecResult
  | processExit (msg : String) : ExecResult
  | panicked : ExecResult
deriving DecidableEq, Repr

/-- Context.execute from context.rs (lines 190 to 236).  The command
string is prefixed with the dummy binary name tacl and split by shlex;
a failed split hits an unwrap in the source (panicked).  clap
get_matches_from then parses the tokens against the assembled command
tree: on any parse failure it terminates the process (processExit) —
it does not return an error to execute.  Only on successful matches
does the routing loop run, invoking the first registered handler of
the matched name and returning its result; the fall-through
Err(Error.UnknownError) at line 235 remains for a matched name absent
from the command list (unreachable when clap only accepts registered
names).  The second component of the result records exactly the
handlers invoked during the call; interp gives each handler its result
on the context and arguments. -/
def execute {H : Type} (ctx : CmdContext H)
    (interp : H → CmdContext H → List String → Except Error CommandResponse)
    (cmd : String) : ExecResult × List H :=
  match shlexSplit ("tacl " ++ cmd) with
  | none => (.panicked, [])
  | some tokens =>
    match clapGetMatches (ctx.commands.map (fun p => p.1)) tokens with
    | .exit msg => (.processExit msg, [])
    | .matches sub args =>
      match findCommand ctx.commands sub with
      | some (_, h) => (.returned (interp h ctx args), [h])
      | none => (.returned (.error .unknownError), [])

/-- The per-kind tab state arena TabState T from tui/src/lib.rs: a
HashMap from tab id to that kind of state. -/
structure TabStateArena (S : Type) where
  states : List (Nat × S)
deriving DecidableEq, Repr

/-- TabState.add_state from tui/src/lib.rs: insert the default state of
the kind for the given tab id. -/
def TabStateArena.add_state {S : Type} (a : TabStateArena S) (tabId : Nat)
    (d : S) : TabStateArena S :=
  ⟨assocInsert a.states tabId d⟩

/-- TabState.get_state from tui/src/lib.rs (get_state and
get_state_mut read the same entry). -/
def TabStateArena.get_state {S : Type} (a : TabStateArena S) (tabId : Nat) :
    Option S :=
  assocFind a.states tabId

/-- Writing a new value through the mutable reference returned by
TabState.get_state_mut: overwrites the entry for that tab id, a no-op
when the id has no entry. -/
def TabStateArena.set_state {S : Type} (a : TabStateArena S) (tabId : Nat)
    (v : S) : TabStateArena S :=
  ⟨assocUpdate a.states tabId v⟩

/-- The Tui resource from tui/src/lib.rs; TD is the tab content type
(the callback bundle, opaque to the claims). -/
structure TuiModel (TD : Type) where
  quit_requested : Bool
  tabs : List (Nat × TD)
  selected_tab : Nat
  next_tab_id : Nat

/-- Tui.add_tab from tui/src/lib.rs for a tab of one kind with state
type S and default state d: read next_tab_id, push (next_tab_id, tab),
run the create_state function (which creates the per-kind arena lazily
when absent and inserts the default state at the new id), then
increment next_tab_id. -/
def addTab {TD S : Type} (tui : TuiModel TD) (tab : TD)
    (arena : Option (TabStateArena S)) (d : S) : TuiModel TD × TabStateArena S :=
  let id := tui.next_tab_id
  let tui2 : TuiModel TD :=
    { tui with tabs := tui.tabs ++ [(id, tab)], next_tab_id := id + 1 }
  let a : TabStateArena S :=
    match arena with
    | none => ⟨[]⟩
    | some a => a
  (tui2, a.add_state id d)

/-- Rust i64 parsing (str.parse with i64 target): an optional sign
followed by at least one ASCII digit, within the 64-bit signed range;
anything else fails. -/
def parseI64 (s : String) : Option Int :=
  let (sign, digits) :=
    match s.data with
    | '-' :: rest => ((-1 : Int), rest)
    | '+' :: rest => ((1 : Int), rest)
    | l => ((1 : Int), l)
  if digits = [] then none
  else if digits.all Char.isDigit then
    let n : Nat := digits.foldl (fun acc c => acc * 10 + (c.toNat - 48)) 0
    let v : Int := sign * n
    if -(2 ^ 63) ≤ v ∧ v < 2 ^ 63 then some v else none
  else none

/-- Core of Rust str.split with a comma pattern: the segments between
commas, in order; the empty string yields one empty segment.  Arguments:
remaining input, current segment (reversed). -/
def splitCommaGo : List Char → List Char → List String
  | [], cur => [String.mk cur.reverse]
  | c :: rest, cur =>
    if c = ',' then String.mk cur.reverse :: splitCommaGo rest []
    else splitCommaGo rest (c :: cur)

/-- Rust str.split on the comma delimiter, as used by the Vec RowId
field decoder. -/
def splitOnComma (s : String) : List String :=
  splitCommaGo s.data []

/-- The decoding loop of the TableField implementation for Vec RowId in
db.rs, applied to the comma-separated segments of the stored text: each
segment goes through parse::<i64>().unwrap(), so a segment that fails
to parse panics, modelled as None. -/
def decodeSegments : List String → Option (List RowId)
  | [] => some []
  | v :: rest =>
    match parseI64 v with
    | none => none
    | some i => (decodeSegments rest).map (fun l => (⟨i⟩ : RowId) :: l)

/-- Decoding of a stored text value as Vec RowId (db.rs, TableField for
Vec RowId): split the string on the comma delimiter and parse each
segment, with None standing for the panic of the unwrap. -/
def decodeVecRowId (s : String) : Option (List RowId) :=
  decodeSegments (splitOnComma s)

/-- TableField for Vec RowId, from_table_field in db.rs: read the
stored TEXT value (propagating database errors), then decode it.  The
outer None is the panic of the unwrap on a segment that fails to
parse. -/
def vecRowIdFromTableField (c : DbConnection) (table : String) (rid : RowId)
    (field : String) : Option (Except Error (List RowId)) :=
  match c.get_field_String table rid field with
  | .error e => some (.error e)
  | .ok s =>
    match decodeVecRowId s with
    | none => none
    | some l => some (.ok l)

section AssocLemmas

variable {κ α : Type _} [DecidableEq κ]

lemma assocFind_insert_self (l : List (κ × α)) (k : κ) (v : α) :
    assocFind (assocInsert l k v) k = some v := by
  induction l with
  | nil => simp [assocInsert, assocFind]
  | cons p rest ih =>
    by_cases h : p.1 = k
    · simp [assocInsert, assocFind, h]
    · cases p with
      | mk k1 a1 =>
        simp only at h
        simp [assocInsert, assocFind, h, ih]

lemma assocFind_insert_ne (l : List (κ × α)) (k k2 : κ) (v : α) (h : k2 ≠ k) :
    assocFind (assocInsert l k v) k2 = assocFind l k2 := by
  induction l with
  | nil => simp [assocInsert, assocFind, Ne.symm h]
  | cons p rest ih =>
    cases p with
    | mk k1 a1 =>
      by_cases h1 : k1 = k
      · subst h1
        simp [assocInsert, assocFind, Ne.symm h]
      · simp [assocInsert, assocFind, h1, ih]

lemma assocFind_update_ne (l : List (κ × α)) (k k2 : κ) (v : α) (h : k2 ≠ k) :
    assocFind (assocUpdate l k v) k2 = assocFind l k2 := by
  induction l with
  | nil => simp [assocUpdate]
  | cons p rest ih =>
    cases p with
    | mk k1 a1 =>
      by_cases h1 : k1 = k
      · subst h1
        simp [assocUpdate, assocFind, Ne.symm h]
      · simp [assocUpdate, assocFind, h1, ih]

lemma assocFind_update_self (l : List (κ × α)) (k : κ) (v w : α)
    (h : assocFind l k = some w) :
    assocFind (assocUpdate l k v) k = some v := by
  induction l with
  | nil => simp [assocFind] at h
  | cons p rest ih =>
    cases p with
    | mk k1 a1 =>
      by_cases h1 : k1 = k
      · subst h1
        simp [assocUpdate, assocFind]
      · simp only [assocFind, h1, if_false] at h
        simp [assocUpdate, assocFind, h1, ih h]

end AssocLemmas

section RegistryLemmas

variable {TypeId : Type} [DecidableEq TypeId] {RVal : TypeId → Type}

lemma getResourceEntry_add_self (r : Registry TypeId RVal) (t : TypeId) (v : RVal t) :
    getResourceEntry (addResource r t v) t = some ⟨t, v⟩ := by
  induction r with
  | nil => simp [addResource, getResourceEntry]
  | cons p rest ih =>
    cases p with
    | mk k e =>
      by_cases h : k = t
      · simp [addResource, getResourceEntry, h]
      · simp [addResource, getResourceEntry, h, ih]

lemma getResourceEntry_add_ne (r : Registry TypeId RVal) (s t : TypeId)
    (w : RVal s) (h : s ≠ t) :
    getResourceEntry (addResource r s w) t = getResourceEntry r t := by
  induction r with
  | nil => simp [addResource, getResourceEntry, h]
  | cons p rest ih =>
    cases p with
    | mk k e =>
      by_cases h1 : k = s
      · subst h1
        simp [addResource, getResourceEntry, h]
      · simp [addResource, getResourceEntry, h1, ih]

lemma getResource_add_self (r : Registry TypeId RVal) (t : TypeId) (v : RVal t) :
    getResource (addResource r t v) t = some v := by
  simp [getResource, getResourceEntry_add_self]

lemma getResource_add_ne (r : Registry TypeId RVal) (s t : TypeId)
    (w : RVal s) (h : s ≠ t) :
    getResource (addResource r s w) t = getResource r t := by
  simp [getResource, getResourceEntry_add_ne r s t w h]

lemma getResourceMut_eq_getResource (r : Registry TypeId RVal) (t : TypeId) :
    getResourceMut r t = getResource r t := rfl

lemma getResource_applyAdds_ne (r : Registry TypeId RVal) (t : TypeId)
    (adds : List (Sigma RVal)) (h : ∀ e ∈ adds, e.1 ≠ t) :
    getResource (applyAdds r adds) t = getResource r t := by
  induction adds generalizing r with
  | nil => rfl
  | cons e rest ih =>
    have he : e.1 ≠ t := h e (by simp)
    have hrest : ∀ x ∈ rest, x.1 ≠ t := fun x hx => h x (by simp [hx])
    calc getResource (applyAdds r (e :: rest)) t
        = getResource (applyAdds (addResource r e.1 e.2) rest) t := rfl
      _ = getResource (addResource r e.1 e.2) t := ih _ hrest
      _ = getResource r t := getResource_add_ne r e.1 t e.2 he

lemma mem_registryKeys_add (r : Registry TypeId RVal) (t x : TypeId) (v : RVal t) :
    x ∈ registryKeys (addResource r t v) ↔ x ∈ registryKeys r ∨ x = t := by
  simp only [registryKeys]
  induction r with
  | nil =>
    simp only [addResource, List.map_nil, List.map_cons, List.mem_cons,
      List.not_mem_nil]
    tauto
  | cons p rest ih =>
    cases p with
    | mk k e =>
      by_cases h : k = t
      · subst h
        rw [show addResource ((k, e) :: rest) k v = (k, ⟨k, v⟩) :: rest by
              simp [addResource]]
        simp only [List.map_cons, List.mem_cons]
        tauto
      · rw [show addResource ((k, e) :: rest) t v = (k, e) :: addResource rest t v by
              simp [addResource, h]]
        simp only [List.map_cons, List.mem_cons]
        rw [ih]
        tauto

lemma nodup_keys_add (r : Registry TypeId RVal) (t : TypeId) (v : RVal t)
    (h : (registryKeys r).Nodup) : (registryKeys (addResource r t v)).Nodup := by
  induction r with
  | nil => simp [addResource, registryKeys]
  | cons p rest ih =>
    cases p with
    | mk k e =>
      simp only [registryKeys, List.map_cons, List.nodup_cons] at h
      obtain ⟨h1, h2⟩ := h
      by_cases hk : k = t
      · subst hk
        rw [show addResource ((k, e) :: rest) k v = (k, ⟨k, v⟩) :: rest by
              simp [addResource]]
        simp only [registryKeys, List.map_cons, List.nodup_cons]
        exact ⟨h1, h2⟩
      · have h3 : k ∉ registryKeys (addResource rest t v) := by
          rw [mem_registryKeys_add]
          rintro (h4 | h4)
          · exact h1 h4
          · exact hk h4
        have h2b : (registryKeys (addResource rest t v)).Nodup := ih h2
        rw [show addResource ((k, e) :: rest) t v = (k, e) :: addResource rest t v by
              simp [addResource, hk]]
        simp only [registryKeys, List.map_cons, List.nodup_cons]
        exact ⟨h3, h2b⟩

lemma nodup_keys_applyAdds (r : Registry TypeId RVal) (adds : List (Sigma RVal))
    (h : (registryKeys r).Nodup) : (registryKeys (applyAdds r adds)).Nodup := by
  induction adds generalizing r with
  | nil => exact h
  | cons e rest ih => exact ih _ (nodup_keys_add r e.1 e.2 h)

lemma getResource_of_mismatch (r : Registry TypeId RVal) (t : TypeId)
    (e : Sigma RVal) (hfind : getResourceEntry r t = some e) (hne : e.1 ≠ t) :
    getResource r t = none := by
  cases e with
  | mk t2 v =>
    simp only at hne
    simp [getResource, hfind, hne]

end RegistryLemmas

section DbLemmas
lemma find?_append_some {α : Type _} (l1 l2 : List α) (p : α → Bool) (a : α)
    (h : l1.find? p = some a) : (l1 ++ l2).find? p = some a := by
  induction l1 with
  | nil => simp [List.find?] at h
  | cons b rest ih =>
    by_cases hb : p b
    · rw [List.find?_cons_of_pos _ hb] at h
      simpa [List.cons_append, List.find?_cons_of_pos _ hb] using h
    · rw [List.find?_cons_of_neg _ hb] at h
      simpa [List.cons_append, List.find?_cons_of_neg _ hb] using ih h

lemma find?_append_none {α : Type _} (l1 l2 : List α) (p : α → Bool)
    (h : l1.find? p = none) : (l1 ++ l2).find? p = l2.find? p := by
  induction l1 with
  | nil => simp
  | cons b rest ih =>
    by_cases hb : p b
    · rw [List.find?_cons_of_pos _ hb] at h
      simp at h
    · rw [List.find?_cons_of_neg _ hb] at h
      simpa [List.cons_append, List.find?_cons_of_neg _ hb] using ih h

lemma tablesSet_find_self (ts : List (String × Table)) (name : String) (t : Table)
    (h : (ts.find? (fun p => p.1 = name)).isSome) :
    (tablesSet ts name t).find? (fun p => p.1 = name) = some (name, t) := by
  induction ts with
  | nil => simp [List.find?] at h
  | cons p rest ih =>
    cases p with
    | mk n tb =>
      by_cases hn : n = name
      · subst hn
        simp only [tablesSet, if_pos rfl]
        exact List.find?_cons_of_pos _ (by simp)
      · rw [List.find?_cons_of_neg _ (by simp [hn])] at h
        simp only [tablesSet, if_neg hn]
        rw [List.find?_cons_of_neg _ (by simp [hn])]
        exact ih h

lemma tablesSet_self_eq (ts : List (String × Table)) (name : String)
    (pr : String × Table)
    (h : ts.find? (fun p => p.1 = name) = some pr) :
    tablesSet ts name pr.2 = ts := by
  induction ts with
  | nil => simp [List.find?] at h
  | cons p rest ih =>
    cases p with
    | mk n tb =>
      by_cases hn : n = name
      · subst hn
        rw [List.find?_cons_of_pos _ (by simp)] at h
        rw [Option.some_inj] at h
        subst h
        simp [tablesSet]
      · rw [List.find?_cons_of_neg _ (by simp [hn])] at h
        simp only [tablesSet, if_neg hn]
        rw [ih h]

lemma lookupTable_tablesSet_self (s : DbState) (name : String) (t0 t : Table)
    (h : s.lookupTable name = some t0) :
    DbState.lookupTable ⟨tablesSet s.tables name t⟩ name = some t := by
  have hsome : (s.tables.find? (fun p => p.1 = name)).isSome := by
    simp only [DbState.lookupTable] at h
    cases hfind : s.tables.find? (fun p => p.1 = name) with
    | none => rw [hfind] at h; simp at h
    | some pr => simp [hfind]
  simp [DbState.lookupTable, tablesSet_find_self s.tables name t hsome]

lemma rowGet_rowSet_self (r : SqlRow) (f : String) (v : SqlValue) :
    rowGet (rowSet r f v) f = v := by
  induction r with
  | nil => simp [rowSet, rowGet, List.find?]
  | cons p rest ih =>
    cases p with
    | mk g w =>
      by_cases hg : g = f
      · subst hg
        rw [show rowSet ((g, w) :: rest) g v = (g, v) :: rowSet rest g v by
              simp [rowSet]]
        simp only [rowGet]
        rw [List.find?_cons_of_pos _ (by simp)]
      · rw [show rowSet ((g, w) :: rest) f v = (g, w) :: rowSet rest f v by
              simp [rowSet, hg]]
        simp only [rowGet]
        rw [List.find?_cons_of_neg _ (by simp [hg])]
        exact ih

lemma find?_map_row_update (rows : List (Int × SqlRow)) (k : Int)
    (g : SqlRow → SqlRow) (p0 : Int × SqlRow)
    (h : rows.find? (fun p => p.1 = k) = some p0) :
    (rows.map (fun p => if p.1 = k then (p.1, g p.2) else p)).find?
        (fun p => p.1 = k) = some (p0.1, g p0.2) := by
  induction rows with
  | nil => simp [List.find?] at h
  | cons q rest ih =>
    cases q with
    | mk i r =>
      by_cases hi : i = k
      · rw [List.find?_cons_of_pos _ (by simp [hi])] at h
        rw [Option.some_inj] at h
        subst h
        simp only [List.map_cons, if_pos hi]
        exact List.find?_cons_of_pos _ (by simp [hi])
      · rw [List.find?_cons_of_neg _ (by simp [hi])] at h
        simp only [List.map_cons, if_neg hi]
        rw [List.find?_cons_of_neg _ (by simp [hi])]
        exact ih h

lemma map_row_update_of_absent (rows : List (Int × SqlRow)) (k : Int)
    (g : SqlRow → SqlRow)
    (h : rows.find? (fun p => p.1 = k) = none) :
    rows.map (fun p => if p.1 = k then (p.1, g p.2) else p) = rows := by
  induction rows with
  | nil => simp
  | cons q rest ih =>
    by_cases hi : q.1 = k
    · rw [List.find?_cons_of_pos _ (by simp [hi])] at h
      simp at h
    · rw [List.find?_cons_of_neg _ (by simp [hi])] at h
      simp [hi, ih h]

lemma map_fst_filter_ne (rows : List (Int × SqlRow)) (k : Int) :
    ((rows.filter (fun p => p.1 ≠ k)).map (fun p => p.1)) =
      (rows.map (fun p => p.1)).filter (fun i => i ≠ k) := by
  induction rows with
  | nil => simp
  | cons q rest ih =>
    simp only [ne_eq, decide_not] at ih ⊢
    by_cases hq : q.1 = k
    · simp [List.filter_cons, hq, ih]
    · simp [List.filter_cons, hq, ih]

lemma setup_preserves_lookup (configs : List TableConfig) (s : DbState)
    (name : String) (t : Table) (h : s.lookupTable name = some t) :
    (setupConnection s configs).lookupTable name = some t := by
  induction configs generalizing s with
  | nil => exact h
  | cons cfg rest ih =>
    cases hl : s.lookupTable cfg.table_name with
    | some tb =>
      simp only [setupConnection, hl]
      exact ih s h
    | none =>
      simp only [setupConnection, hl]
      apply ih
      simp only [DbState.lookupTable] at h ⊢
      cases hfind : s.tables.find? (fun p => p.1 = name) with
      | none => rw [hfind] at h; simp at h
      | some pr =>
        rw [hfind] at h
        rw [find?_append_some _ _ _ pr hfind]
        exact h

lemma setup_creates_table (configs : List TableConfig) (s : DbState)
    (name : String) (hmem : name ∈ configs.map TableConfig.table_name) :
    ∃ t, (setupConnection s configs).lookupTable name = some t := by
  induction configs generalizing s with
  | nil => simp at hmem
  | cons cfg rest ih =>
    simp only [List.map_cons, List.mem_cons] at hmem
    cases hl : s.lookupTable cfg.table_name with
    | some tb =>
      simp only [setupConnection, hl]
      rcases hmem with hmem | hmem
      · subst hmem
        exact ⟨tb, setup_preserves_lookup rest s cfg.table_name tb hl⟩
      · exact ih s hmem
    | none =>
      simp only [setupConnection, hl]
      rcases hmem with hmem | hmem
      · subst hmem
        have h2 : DbState.lookupTable
            ⟨s.tables ++ [(cfg.table_name, ⟨cfg.columns, []⟩)]⟩ cfg.table_name
            = some ⟨cfg.columns, []⟩ := by
          simp only [DbState.lookupTable] at hl ⊢
          cases hfind : s.tables.find? (fun p => p.1 = cfg.table_name) with
          | some pr => rw [hfind] at hl; simp at hl
          | none =>
            rw [find?_append_none _ _ _ hfind]
            rw [List.find?_cons_of_pos _ (by simp)]
            rfl
        exact ⟨⟨cfg.columns, []⟩, setup_preserves_lookup rest _ cfg.table_name _ h2⟩
      · exact ih _ hmem

lemma setup_rows_empty (configs : List TableConfig) (s : DbState)
    (hinv : ∀ n t, s.lookupTable n = some t → t.rows = [])
    (n : String) (t : Table)
    (h : (setupConnection s configs).lookupTable n = some t) : t.rows = [] := by
  induction configs generalizing s with
  | nil => exact hinv n t h
  | cons cfg rest ih =>
    cases hl : s.lookupTable cfg.table_name with
    | some tb =>
      simp only [setupConnection, hl] at h
      exact ih s hinv h
    | none =>
      simp only [setupConnection, hl] at h
      refine ih ⟨s.tables ++ [(cfg.table_name, ⟨cfg.columns, []⟩)]⟩ ?_ h
      intro n2 t2 h2
      simp only [DbState.lookupTable] at h2
      cases hfind : s.tables.find? (fun p => p.1 = n2) with
      | some pr =>
        rw [find?_append_some _ _ _ pr hfind] at h2
        apply hinv n2 t2
        simp [DbState.lookupTable, hfind]
        simpa using h2
      | none =>
        rw [find?_append_none _ _ _ hfind] at h2
        by_cases hn2 : cfg.table_name = n2
        · rw [List.find?_cons_of_pos _ (by simp [hn2])] at h2
          have h3 : (⟨cfg.columns, []⟩ : Table) = t2 :=
            Option.some_inj.mp h2
          rw [← h3]
        · rw [List.find?_cons_of_neg _ (by simp [hn2])] at h2
          simp at h2
end DbLemmas

/-- Claim C1: the claim states that decoding a stored Vec RowId field
never panics, that the empty string decodes to the empty list, and that
non-numeric segments are skipped or reported as an error.  The source
instead calls parse followed by unwrap on every comma segment, so the
decoder panics (modelled as None) on the empty string, whose single
segment is empty, and on any non-numeric segment; only fully numeric
comma-joined strings decode. -/
theorem vecRowId_decode_hits_unwrap :
    decodeVecRowId "" = none ∧
    decodeVecRowId "1,x" = none ∧
    decodeVecRowId "1,2" = some [⟨1⟩, ⟨2⟩] := by
  refine ⟨?_, ?_, ?_⟩ <;> decide

/-- A concrete resource-type family for witnesses: every type identity
carries Nat-valued resources. -/
abbrev NatRes : Nat → Type := fun _ => Nat

/-- Claim C2: after add_resource of value v at type t, and any further
adds at other types, get_resource and get_resource_mut at t return
exactly v. -/
theorem resource_add_then_get {TypeId : Type} [DecidableEq TypeId]
    {RVal : TypeId → Type} (r : Registry TypeId RVal) (t : TypeId) (v : RVal t)
    (adds : List (Sigma RVal)) (hne : ∀ e ∈ adds, e.1 ≠ t) :
    getResource (applyAdds (addResource r t v) adds) t = some v ∧
    getResourceMut (applyAdds (addResource r t v) adds) t = some v := by
  have h1 : getResource (applyAdds (addResource r t v) adds) t = some v := by
    rw [getResource_applyAdds_ne _ _ _ hne, getResource_add_self]
  exact ⟨h1, by rw [getResourceMut_eq_getResource]; exact h1⟩

/-- Witness for claim C2 at a concrete registry. -/
theorem resource_add_then_get_witness :
    getResource (applyAdds (addResource ([] : Registry Nat NatRes) 0 5) [⟨1, 7⟩]) 0
      = some 5 ∧
    getResourceMut (applyAdds (addResource ([] : Registry Nat NatRes) 0 5) [⟨1, 7⟩]) 0
      = some 5 :=
  resource_add_then_get [] 0 5 [⟨1, 7⟩] (by decide)

/-- Claim C3: registry invariants.  Adding preserves key uniqueness (at
most one instance per type, also along any sequence of adds), adding at
t makes the lookup at t return the new value (re-registration
overwrites), adding at a distinct type s changes neither get nor
get_mut nor has at t, and the downcast never returns a value whose
stored tag mismatches the requested type. -/
theorem resource_registry_invariants {TypeId : Type} [DecidableEq TypeId]
    {RVal : TypeId → Type} (r : Registry TypeId RVal) (t s : TypeId)
    (v : RVal t) (w : RVal s) (adds : List (Sigma RVal))
    (hnodup : (registryKeys r).Nodup) (hne : s ≠ t) :
    (registryKeys (addResource r t v)).Nodup ∧
    (registryKeys (applyAdds r adds)).Nodup ∧
    getResource (addResource r t v) t = some v ∧
    getResource (addResource r s w) t = getResource r t ∧
    getResourceMut (addResource r s w) t = getResourceMut r t ∧
    hasResource (addResource r s w) t = hasResource r t ∧
    (∀ e, getResourceEntry r t = some e → e.1 ≠ t → getResource r t = none) := by
  refine ⟨nodup_keys_add r t v hnodup, nodup_keys_applyAdds r adds hnodup,
    getResource_add_self r t v, getResource_add_ne r s t w hne, ?_, ?_,
    fun e hfind hmis => getResource_of_mismatch r t e hfind hmis⟩
  · rw [getResourceMut_eq_getResource, getResourceMut_eq_getResource]
    exact getResource_add_ne r s t w hne
  · simp [hasResource, getResourceEntry_add_ne r s t w hne]

/-- Witness for claim C3 at a concrete registry. -/
theorem resource_registry_invariants_witness :
    (registryKeys (addResource ([(2, ⟨2, 9⟩)] : Registry Nat NatRes) 0 5)).Nodup ∧
    (registryKeys (applyAdds ([(2, ⟨2, 9⟩)] : Registry Nat NatRes) [⟨1, 7⟩])).Nodup ∧
    getResource (addResource ([(2, ⟨2, 9⟩)] : Registry Nat NatRes) 0 5) 0 = some 5 ∧
    getResource (addResource ([(2, ⟨2, 9⟩)] : Registry Nat NatRes) 1 7) 0 =
      getResource ([(2, ⟨2, 9⟩)] : Registry Nat NatRes) 0 ∧
    getResourceMut (addResource ([(2, ⟨2, 9⟩)] : Registry Nat NatRes) 1 7) 0 =
      getResourceMut ([(2, ⟨2, 9⟩)] : Registry Nat NatRes) 0 ∧
    hasResource (addResource ([(2, ⟨2, 9⟩)] : Registry Nat NatRes) 1 7) 0 =
      hasResource ([(2, ⟨2, 9⟩)] : Registry Nat NatRes) 0 ∧
    (∀ e, getResourceEntry ([(2, ⟨2, 9⟩)] : Registry Nat NatRes) 0 = some e →
      e.1 ≠ 0 → getResource ([(2, ⟨2, 9⟩)] : Registry Nat NatRes) 0 = none) :=
  resource_registry_invariants [(2, ⟨2, 9⟩)] 0 1 5 7 [⟨1, 7⟩] (by decide) (by decide)

/-- A concrete command table for the claim C4 evaluation: one command
named foo, declaring no arguments, with handler id 0. -/
def ctxW : CmdContext Nat := ⟨[(⟨"foo", fun args => args.isEmpty⟩, 0)]⟩

/-- A concrete handler interpretation for the claim C4 evaluation. -/
def interpW : Nat → CmdContext Nat → List String → Except Error CommandResponse :=
  fun _ _ _ => .ok (CommandResponse.new "ran")

/-- Claim C4: the claim states that Context.execute returns an error on
an unmatched command string.  The source instead calls clap
get_matches_from, which on an unrecognized or missing subcommand prints
the error and terminates the process, so execute never returns there
(the Err(Error.UnknownError) fall-through is unreachable for unmatched
input).  Evaluating the model: the unregistered command bar and the
empty command string both end in a process exit with no handler
invoked and are not an error return, while the registered command foo
invokes exactly its one handler and returns its response. -/
theorem execute_unknown_command_exits :
    execute ctxW interpW "bar" =
      (.processExit "error: unrecognized subcommand", []) ∧
    (∀ e : Error, (execute ctxW interpW "bar").1 ≠
      ExecResult.returned (.error e)) ∧
    execute ctxW interpW "" =
      (.processExit "error: a subcommand is required", []) ∧
    execute ctxW interpW "foo" =
      (.returned (.ok (CommandResponse.new "ran")), [0]) := by
  have h1 : execute ctxW interpW "bar" =
      (.processExit "error: unrecognized subcommand", []) := by decide
  refine ⟨h1, ?_, by decide, by decide⟩
  intro e h
  rw [h1] at h
  simp at h

/-- Claim C9: adding two tabs of the same kind allocates the ids n and
n+1 (distinct, strictly increasing), records both tabs, gives each id
its own default state entry in the per-kind arena, and mutating the
state stored for one id never changes the state stored for the other. -/
theorem tab_arena_add_twice_independent {TD S : Type} (tui : TuiModel TD)
    (tab1 tab2 : TD) (arena : Option (TabStateArena S)) (d v : S)
    (tui1 tui2 : TuiModel TD) (a1 a2 : TabStateArena S)
    (h1 : addTab tui tab1 arena d = (tui1, a1))
    (h2 : addTab tui1 tab2 (some a1) d = (tui2, a2)) :
    tui2.tabs = tui.tabs ++ [(tui.next_tab_id, tab1), (tui.next_tab_id + 1, tab2)] ∧
    tui.next_tab_id < tui.next_tab_id + 1 ∧
    a2.get_state tui.next_tab_id = some d ∧
    a2.get_state (tui.next_tab_id + 1) = some d ∧
    (a2.set_state tui.next_tab_id v).get_state (tui.next_tab_id + 1) =
      a2.get_state (tui.next_tab_id + 1) ∧
    (a2.set_state (tui.next_tab_id + 1) v).get_state tui.next_tab_id =
      a2.get_state tui.next_tab_id ∧
    (a2.set_state tui.next_tab_id v).get_state tui.next_tab_id = some v := by
  simp only [addTab] at h1 h2
  injection h1 with htui1 ha1
  subst htui1
  subst ha1
  injection h2 with htui2 ha2
  subst htui2
  subst ha2
  have hne1 : tui.next_tab_id ≠ tui.next_tab_id + 1 := by omega
  have hg1 : TabStateArena.get_state
      (((match arena with
          | none => (⟨[]⟩ : TabStateArena S)
          | some a => a).add_state tui.next_tab_id d).add_state
        (tui.next_tab_id + 1) d) tui.next_tab_id = some d := by
    simp only [TabStateArena.get_state, TabStateArena.add_state]
    rw [assocFind_insert_ne _ _ _ _ hne1, assocFind_insert_self]
  refine ⟨by simp, by omega, hg1, ?_, ?_, ?_, ?_⟩
  · simp only [TabStateArena.get_state, TabStateArena.add_state]
    rw [assocFind_insert_self]
  · simp only [TabStateArena.get_state, TabStateArena.add_state,
      TabStateArena.set_state]
    rw [assocFind_update_ne _ _ _ _ (Ne.symm hne1)]
  · simp only [TabStateArena.get_state, TabStateArena.add_state,
      TabStateArena.set_state]
    rw [assocFind_update_ne _ _ _ _ hne1]
  · simp only [TabStateArena.get_state, TabStateArena.add_state,
      TabStateArena.set_state] at hg1 ⊢
    exact assocFind_update_self _ _ _ d hg1

/-- Witness for claim C9: two tabs of one kind, ids 0 and 1, each with
the default state. -/
theorem tab_arena_add_twice_independent_witness :
    (TabStateArena.mk [(0, 0), (1, 0)] : TabStateArena Nat).get_state 0 = some 0 ∧
    (TabStateArena.mk [(0, 0), (1, 0)] : TabStateArena Nat).get_state 1 = some 0 := by
  obtain ⟨-, -, h3, h4, -, -, -⟩ :=
    tab_arena_add_twice_independent (TuiModel.mk false [] 0 0 : TuiModel Unit)
      () () none (0 : Nat) 1 ⟨false, [(0, ())], 0, 1⟩
      ⟨false, [(0, ()), (1, ())], 0, 2⟩ ⟨[(0, 0)]⟩ ⟨[(0, 0), (1, 0)]⟩ rfl rfl
  exact ⟨h3, h4⟩

lemma lookupTable_find (s : DbState) (name : String) (t : Table)
    (h : s.lookupTable name = some t) :
    s.tables.find? (fun p => p.1 = name) = some (name, t) := by
  simp only [DbState.lookupTable] at h
  cases hfind : s.tables.find? (fun p => p.1 = name) with
  | none => rw [hfind] at h; simp at h
  | some pr =>
    rw [hfind] at h
    have h2 : pr.2 = t := by simpa using h
    have h3 : pr.1 = name := by simpa using List.find?_some hfind
    cases pr with
    | mk a b =>
      simp only at h2 h3
      rw [h2, h3]

lemma filter_ne_of_not_mem (l : List Int) (k : Int) (h : k ∉ l) :
    l.filter (fun i => i ≠ k) = l := by
  rw [List.filter_eq_self]
  intro x hx
  have hx2 : x ≠ k := fun hh => h (hh ▸ hx)
  simp [hx2]

/-- Claim C5: on a fresh in-memory connection whose setup created the
table, inserting the first row returns id 1 and the row-id listing then
contains exactly that id. -/
theorem fresh_table_first_insert (configs : List TableConfig) (table : String)
    (hmem : table ∈ configs.map TableConfig.table_name) :
    ∃ c2, (DbConnection.open_in_memory configs).new_row_in_table table =
        .ok (⟨1⟩, c2) ∧
      c2.get_table_row_ids table = .ok [1] := by
  obtain ⟨t, ht⟩ := setup_creates_table configs ⟨[]⟩ table hmem
  have hrows : t.rows = [] := by
    refine setup_rows_empty configs ⟨[]⟩ ?_ table t ht
    intro n t2 h2
    simp [DbState.lookupTable] at h2
  simp only [DbConnection.open_in_memory, DbConnection.new_row_in_table,
    DbConnection.get_connection_if_exists, ht, hrows]
  have h1 : maxRowId ([] : List (Int × SqlRow)) + 1 = 1 := by
    simp [maxRowId]
  rw [h1]
  refine ⟨_, rfl, ?_⟩
  have hl2 : DbState.lookupTable
      ⟨tablesSet (setupConnection ⟨[]⟩ configs).tables table
        ⟨t.columns, [] ++ [(1, t.columns.map (fun col => (col, SqlValue.null)))]⟩⟩
      table =
      some ⟨t.columns, [] ++ [(1, t.columns.map (fun col => (col, SqlValue.null)))]⟩ :=
    lookupTable_tablesSet_self _ table t _ ht
  simp only [DbConnection.get_table_row_ids, DbConnection.get_connection_if_exists,
    hl2]
  simp

/-- Witness for claim C5 at a concrete descriptor list. -/
theorem fresh_table_first_insert_witness :
    ∃ c2, (DbConnection.open_in_memory [⟨"foo", ["bar"]⟩]).new_row_in_table "foo" =
        .ok (⟨1⟩, c2) ∧
      c2.get_table_row_ids "foo" = .ok [1] :=
  fresh_table_first_insert [⟨"foo", ["bar"]⟩] "foo" (by decide)

lemma set_then_get_raw (c : DbConnection) (s : DbState) (t : Table)
    (table field : String) (rid : RowId) (v : SqlValue)
    (hconn : c.connection = some s)
    (htable : s.lookupTable table = some t)
    (hfield : field ∈ t.columns)
    (hrow : (t.rows.find? (fun p => p.1 = rid.val)).isSome) :
    ∃ c2, c.set_field_in_table table rid field v = .ok c2 ∧
      c2.get_field_raw table rid field = .ok v := by
  obtain ⟨p0, hp0⟩ := Option.isSome_iff_exists.mp hrow
  obtain ⟨conn, path⟩ := c
  simp only at hconn
  subst hconn
  refine ⟨⟨some ⟨tablesSet s.tables table
      ⟨t.columns,
       t.rows.map (fun p => if p.1 = rid.val then (p.1, rowSet p.2 field v) else p)⟩⟩,
    path⟩, ?_, ?_⟩
  · simp only [DbConnection.set_field_in_table, DbConnection.get_connection_if_exists,
      htable]
    rw [if_pos hfield]
  · have hl2 : DbState.lookupTable
        ⟨tablesSet s.tables table
          ⟨t.columns,
           t.rows.map (fun p => if p.1 = rid.val then (p.1, rowSet p.2 field v) else p)⟩⟩
        table =
        some ⟨t.columns,
          t.rows.map (fun p => if p.1 = rid.val then (p.1, rowSet p.2 field v) else p)⟩ :=
      lookupTable_tablesSet_self _ table t _ htable
    have hfind2 := find?_map_row_update t.rows rid.val (fun r => rowSet r field v) p0 hp0
    simp only [DbConnection.get_field_raw, DbConnection.get_connection_if_exists, hl2]
    rw [if_pos (show field ∈ t.columns from hfield)]
    simp only [hfind2, rowGet_rowSet_self]

/-- Claim C6: on an existing (table, row, field), setting then getting
round-trips the exact value for String, 64-bit integer and RowId typed
fields. -/
theorem set_get_field_roundtrip (c : DbConnection) (s : DbState) (t : Table)
    (table field : String) (rid : RowId)
    (hconn : c.connection = some s)
    (htable : s.lookupTable table = some t)
    (hfield : field ∈ t.columns)
    (hrow : (t.rows.find? (fun p => p.1 = rid.val)).isSome) :
    (∀ str : String, ∃ c2,
      c.set_field_in_table table rid field (toSqlString str) = .ok c2 ∧
      c2.get_field_String table rid field = .ok str) ∧
    (∀ i : Int, ∃ c2,
      c.set_field_in_table table rid field (toSqlI64 i) = .ok c2 ∧
      c2.get_field_I64 table rid field = .ok i) ∧
    (∀ r2 : RowId, ∃ c2,
      c.set_field_in_table table rid field (toSqlRowId r2) = .ok c2 ∧
      c2.get_field_RowId table rid field = .ok r2) := by
  refine ⟨?_, ?_, ?_⟩
  · intro str
    obtain ⟨c2, hset, hget⟩ :=
      set_then_get_raw c s t table field rid (toSqlString str) hconn htable hfield hrow
    exact ⟨c2, hset, by
      simp only [DbConnection.get_field_String, toSqlString] at hget ⊢
      simp only [hget, fromSqlString]⟩
  · intro i
    obtain ⟨c2, hset, hget⟩ :=
      set_then_get_raw c s t table field rid (toSqlI64 i) hconn htable hfield hrow
    exact ⟨c2, hset, by
      simp only [DbConnection.get_field_I64, toSqlI64] at hget ⊢
      simp only [hget, fromSqlI64]⟩
  · intro r2
    obtain ⟨c2, hset, hget⟩ :=
      set_then_get_raw c s t table field rid (toSqlRowId r2) hconn htable hfield hrow
    exact ⟨c2, hset, by
      simp only [DbConnection.get_field_RowId, toSqlRowId] at hget ⊢
      simp only [hget, fromSqlRowId]⟩

/-- A concrete table for witnesses: one column bar, one row with id 1. -/
def tW : Table := ⟨["bar"], [(1, [("bar", SqlValue.null)])]⟩

/-- A concrete database state for witnesses: one table foo. -/
def sW : DbState := ⟨[("foo", tW)]⟩

/-- A concrete open in-memory connection for witnesses. -/
def cW : DbConnection := ⟨some sW, none⟩

/-- Witness for claim C6: the String round trip on the concrete
connection. -/
theorem set_get_field_roundtrip_witness :
    ∃ c2, cW.set_field_in_table "foo" ⟨1⟩ "bar" (toSqlString "xy") = .ok c2 ∧
      c2.get_field_String "foo" ⟨1⟩ "bar" = .ok "xy" :=
  (set_get_field_roundtrip cW sW tW "foo" "bar" ⟨1⟩ rfl (by decide) (by decide)
    (by decide)).1 "xy"

/-- Claim C7: removing a row always succeeds; afterwards the row-id
listing is the old listing with the removed id filtered out, so a
present id is no longer listed, and removing an absent id leaves the
listing unchanged. -/
theorem remove_row_semantics (c : DbConnection) (s : DbState) (t : Table)
    (table : String) (rid : RowId)
    (hconn : c.connection = some s)
    (htable : s.lookupTable table = some t) :
    ∃ c2, c.remove_row_in_table table rid = .ok c2 ∧
      c2.get_table_row_ids table =
        .ok ((t.rows.map (fun p => p.1)).filter (fun i => i ≠ rid.val)) ∧
      rid.val ∉ (t.rows.map (fun p => p.1)).filter (fun i => i ≠ rid.val) ∧
      (rid.val ∉ t.rows.map (fun p => p.1) →
        c2.get_table_row_ids table = .ok (t.rows.map (fun p => p.1))) := by
  obtain ⟨conn, path⟩ := c
  simp only at hconn
  subst hconn
  refine ⟨⟨some ⟨tablesSet s.tables table
      ⟨t.columns, t.rows.filter (fun p => p.1 ≠ rid.val)⟩⟩, path⟩, ?_, ?_, ?_, ?_⟩
  · simp only [DbConnection.remove_row_in_table,
      DbConnection.get_connection_if_exists, htable]
  · have hl2 : DbState.lookupTable
        ⟨tablesSet s.tables table
          ⟨t.columns, t.rows.filter (fun p => p.1 ≠ rid.val)⟩⟩ table =
        some ⟨t.columns, t.rows.filter (fun p => p.1 ≠ rid.val)⟩ :=
      lookupTable_tablesSet_self _ table t _ htable
    simp only [DbConnection.get_table_row_ids, DbConnection.get_connection_if_exists,
      hl2]
    rw [map_fst_filter_ne]
  · simp [List.mem_filter]
  · intro habs
    have hl2 : DbState.lookupTable
        ⟨tablesSet s.tables table
          ⟨t.columns, t.rows.filter (fun p => p.1 ≠ rid.val)⟩⟩ table =
        some ⟨t.columns, t.rows.filter (fun p => p.1 ≠ rid.val)⟩ :=
      lookupTable_tablesSet_self _ table t _ htable
    simp only [DbConnection.get_table_row_ids, DbConnection.get_connection_if_exists,
      hl2]
    rw [map_fst_filter_ne, filter_ne_of_not_mem _ _ habs]

/-- Witness for claim C7: removing the only row of the concrete table
empties the listing. -/
theorem remove_row_semantics_witness :
    ∃ c2, cW.remove_row_in_table "foo" ⟨1⟩ = .ok c2 ∧
      c2.get_table_row_ids "foo" = .ok [] := by
  obtain ⟨c2, h1, h2, h3, h4⟩ :=
    remove_row_semantics cW sW tW "foo" ⟨1⟩ rfl (by decide)
  refine ⟨c2, h1, ?_⟩
  rw [h2]
  rfl

/-- Claim C8: delete_db succeeds exactly when a connection is open; on
an open in-memory connection it succeeds, after which is_open is false
and every row-level operation returns the no-active-connection
error. -/
theorem delete_db_semantics (c : DbConnection) (s : DbState)
    (hconn : c.connection = some s) (hmem : c.db_path = none) :
    (∀ c3 : DbConnection, (∃ x, c3.delete_db = .ok x) ↔ c3.is_open = true) ∧
    ∃ c2, c.delete_db = .ok c2 ∧ c2.is_open = false ∧
      (∀ table, c2.new_row_in_table table =
        .error (.new "no active db connection")) ∧
      (∀ table rid field v, c2.set_field_in_table table rid field v =
        .error (.new "no active db connection")) ∧
      (∀ table rid field, c2.get_field_raw table rid field =
        .error (.new "no active db connection")) ∧
      (∀ table rid, c2.remove_row_in_table table rid =
        .error (.new "no active db connection")) ∧
      (∀ table, c2.get_table_row_ids table =
        .error (.new "no active db connection")) := by
  constructor
  · intro c3
    obtain ⟨conn3, path3⟩ := c3
    cases conn3 with
    | none => simp [DbConnection.delete_db, DbConnection.is_open]
    | some s3 => simp [DbConnection.delete_db, DbConnection.is_open]
  · obtain ⟨conn, path⟩ := c
    simp only at hconn
    subst hconn
    exact ⟨⟨none, none⟩, rfl, rfl, fun table => rfl,
      fun table rid field v => rfl, fun table rid field => rfl,
      fun table rid => rfl, fun table => rfl⟩

/-- Witness for claim C8 on a concrete open in-memory connection. -/
theorem delete_db_semantics_witness :
    ∃ c2, cW.delete_db = .ok c2 ∧ c2.is_open = false := by
  obtain ⟨-, c2, hdel, hopen, -, -, -, -, -⟩ :=
    delete_db_semantics cW sW rfl rfl
  exact ⟨c2, hdel, hopen⟩

/-- Claim C10: an UPDATE whose row id is absent from the table succeeds
and leaves the connection state entirely unchanged, while the
corresponding read on the same (table, row, field) errors — missing-row
detection exists only on the read path. -/
theorem set_field_missing_row_noop (c : DbConnection) (s : DbState) (t : Table)
    (table field : String) (rid : RowId) (v : SqlValue)
    (hconn : c.connection = some s)
    (htable : s.lookupTable table = some t)
    (hfield : field ∈ t.columns)
    (habsent : t.rows.find? (fun p => p.1 = rid.val) = none) :
    c.set_field_in_table table rid field v = .ok c ∧
    c.get_field_raw table rid field = .error (.new "Query returned no rows") := by
  obtain ⟨conn, path⟩ := c
  simp only at hconn
  subst hconn
  constructor
  · simp only [DbConnection.set_field_in_table,
      DbConnection.get_connection_if_exists, htable]
    rw [if_pos hfield]
    rw [map_row_update_of_absent t.rows rid.val (fun r => rowSet r field v) habsent]
    have hfind : s.tables.find? (fun p => p.1 = table) = some (table, t) :=
      lookupTable_find s table t htable
    have heq := tablesSet_self_eq s.tables table (table, t) hfind
    simp only at heq
    show (Except.ok ⟨some ⟨tablesSet s.tables table t⟩, path⟩ :
        Except Error DbConnection) = .ok ⟨some s, path⟩
    rw [heq]
  · simp only [DbConnection.get_field_raw,
      DbConnection.get_connection_if_exists, htable]
    rw [if_pos hfield]
    simp only [habsent]

/-- A concrete table with no rows, for the missing-row witness. -/
def t10W : Table := ⟨["bar"], []⟩

/-- A concrete database state with the empty table foo. -/
def s10W : DbState := ⟨[("foo", t10W)]⟩

/-- A concrete open connection over the empty table. -/
def c10W : DbConnection := ⟨some s10W, none⟩

/-- Witness for claim C10: updating row 5 of the empty table is a
successful no-op and the read errors. -/
theorem set_field_missing_row_noop_witness :
    c10W.set_field_in_table "foo" ⟨5⟩ "bar" (toSqlString "xy") = .ok c10W ∧
    c10W.get_field_raw "foo" ⟨5⟩ "bar" =
      .error (.new "Query returned no rows") :=
  set_field_missing_row_noop c10W s10W t10W "foo" "bar" ⟨5⟩ (toSqlString "xy")
    rfl (by decide) (by decide) (by decide)

end TrainingAssistant
